import Mathlib

/-!
Shallow embedding of the stack-machine repository: the execution engine
(src/stack-machine.js, class StackMachine) and the assembler (the unnamed
source file, class Assembly).  JavaScript peculiarities that the source
relies on are modelled explicitly:

* Int8Array reads out of bounds yield `undefined`; writes out of bounds are
  silently ignored; written values are wrapped to signed 8-bit width.
  `undefined` and `NaN` appearing in numeric positions are modelled as
  `none : Option Int` (both coerce to 0 when stored into an Int8Array, and
  both fail the `Number.isInteger` test used by the range predicates).
* The instruction pointer is an `Option Int`: after `halt` the source adds
  the `undefined` instructionPointerDiff to it, turning it into `NaN`
  (modelled as `none`).
* Thrown exceptions are modelled with `Except`; `execute` catches them and
  returns a failure report, so it is a total function returning a report.
-/

set_option maxRecDepth 20000

namespace StackMachineModel

/-- static wordSize = 8 -/
def wordSize : Nat := 8

/-- static stackSize = 2 ** wordSize -/
def stackSize : Int := 2 ^ wordSize

/-- static memorySize = 2 ** wordSize -/
def memorySize : Int := 2 ^ wordSize

/-- The JavaScript error values thrown by the source (RangeError, TypeError,
and plain Error). -/
inductive JsError where
  | rangeError (msg : String)
  | typeError (msg : String)
  | error (msg : String)
deriving DecidableEq

/-- The 19 operations, in the declaration order of the static `operations`
object; `Object.keys` enumerates them in this order, so the opcode of an
operation is its position in this enumeration. -/
inductive OpName where
  | halt
  | noOperation
  | push
  | pop
  | store
  | load
  | add
  | subtract
  | multiply
  | divide
  | less
  | greater
  | same
  | different
  | and
  | or
  | not
  | jump
  | jumpConditionally
deriving DecidableEq

/-- Object.keys(StackMachine.operations), in declaration order. -/
def opList : List OpName :=
  [.halt, .noOperation, .push, .pop, .store, .load, .add, .subtract,
   .multiply, .divide, .less, .greater, .same, .different, .and, .or,
   .not, .jump, .jumpConditionally]

/-- The machine state: #stack, #stackCounter, #memory, #instructionPointer.
Stack and memory are Int8Arrays of length 256; the lists carry that length
as a side invariant.  The instruction pointer is `none` when it is NaN
(which happens after a halt, see applyStateChange). -/
structure Machine where
  stack : List Int
  stackCounter : Int
  memory : List Int
  instructionPointer : Option Int
deriving DecidableEq

/-- Wrap an integer to signed 8-bit width, as storing into an Int8Array does. -/
def toInt8 (v : Int) : Int := (v + 128) % 256 - 128

/-- The value an Int8Array stores for a JS number: integers wrap to 8 bits,
`NaN` and `undefined` (modelled as `none`) store 0. -/
def jsToInt8 : Option Int → Int
  | some v => toInt8 v
  | none => 0

/-- Read `a[i]` from an Int8Array: out-of-bounds or negative indices give
`undefined` (`none`). -/
def aRead (a : List Int) (i : Int) : Option Int :=
  if 0 ≤ i then a.get? i.toNat else none

/-- Read `a[i]` where the index itself may be `undefined`/NaN (an
out-of-range index access on a typed array yields `undefined`). -/
def jsIndexRead (a : List Int) (i : Option Int) : Option Int :=
  match i with
  | some j => aRead a j
  | none => none

/-- Write `a[i] = v` on an Int8Array: out-of-bounds and negative indices are
silently ignored, stored values are wrapped to 8 bits. -/
def aWrite (a : List Int) (i : Int) (v : Option Int) : List Int :=
  if 0 ≤ i ∧ i < (a.length : Int) then
    a.set i.toNat (jsToInt8 v)
  else a

/-- `a.fill(v, s, e)` on an Int8Array: negative indices are taken relative
to the end and both are clamped to [0, length]. -/
def aFill (a : List Int) (v : Int) (s e : Int) : List Int :=
  let len : Int := a.length
  let k := if s < 0 then max (len + s) 0 else min s len
  let f := if e < 0 then max (len + e) 0 else min e len
  List.ofFn (fun i : Fin a.length =>
    if k ≤ (i.val : Int) ∧ (i.val : Int) < f then toInt8 v
    else a.get i)

/-- JS `+` on two values that are each a number or undefined: any undefined
operand gives NaN (`none`). -/
def jsAdd : Option Int → Option Int → Option Int
  | some x, some y => some (x + y)
  | _, _ => none

/-- JS `-` with undefined producing NaN. -/
def jsSub : Option Int → Option Int → Option Int
  | some x, some y => some (x - y)
  | _, _ => none

/-- JS `*` with undefined producing NaN. -/
def jsMul : Option Int → Option Int → Option Int
  | some x, some y => some (x * y)
  | _, _ => none

/-- JS `<` : comparisons involving undefined (NaN) are false. -/
def jsLt : Option Int → Option Int → Bool
  | some x, some y => decide (x < y)
  | _, _ => false

/-- JS `>` : comparisons involving undefined (NaN) are false. -/
def jsGt : Option Int → Option Int → Bool
  | some x, some y => decide (x > y)
  | _, _ => false

/-- JS `===` on number-or-undefined values: undefined === undefined is true,
undefined never equals a number. -/
def jsStrictEq : Option Int → Option Int → Bool
  | some x, some y => decide (x = y)
  | none, none => true
  | _, _ => false

/-- `Math.floor(a / b)` on integer operands: floor division; division by
zero gives ±Infinity (never an integer, modelled as `none`), undefined
operands give NaN (`none`). -/
def jsFloorDiv : Option Int → Option Int → Option Int
  | some x, some y => if decide (y = 0) then none else some (Int.fdiv x y)
  | _, _ => none

/-- JS `%` on integer operands: truncated remainder (sign of the dividend);
zero divisor or undefined operands give NaN (`none`). -/
def jsMod : Option Int → Option Int → Option Int
  | some x, some y => if decide (y = 0) then none else some (Int.tmod x y)
  | _, _ => none

/-- The state-change descriptor built by the operation handlers and
validated by defineSafeStateChange.  `memoryAddressWritten`,
`memoryValueWritten` and `instructionPointerDiff` are `none` when the
source leaves them `undefined` (or they are NaN). -/
structure StateChange where
  halt : Bool
  numStackValuesPopped : Int
  stackValuesPushed : List (Option Int)
  memoryAddressWritten : Option Int
  memoryValueWritten : Option Int
  instructionPointerDiff : Option Int
deriving DecidableEq

/-- #isInStackCount, exactly as written in the source:
`(Number.isInteger(value) && 0 <= value) || value < this.#stackCounter`.
The popped counts the engine passes are integer literals, so the
Number.isInteger conjunct is always true.  Note the grouping: a
non-negative popped count passes regardless of the stack counter. -/
def isInStackCount (stackCounter : Int) (value : Int) : Bool :=
  (true && decide (0 ≤ value)) || decide (value < stackCounter)

/-- static isInValueRange: integer and within the signed word range.
NaN/undefined (`none`) fails Number.isInteger. -/
def isInValueRange : Option Int → Bool
  | some v =>
      decide (-((2 : Int) ^ (wordSize - 1)) ≤ v) &&
      decide (v ≤ (2 : Int) ^ (wordSize - 1) - 1)
  | none => false

/-- static isInAddressRange: integer and within [0, memorySize).
NaN/undefined (`none`) fails Number.isInteger. -/
def isInAddressRange : Option Int → Bool
  | some a => decide (0 ≤ a) && decide (a < memorySize)
  | none => false

/-- #ensureMemoryBounds: throws RangeError when address < 0 or
address >= memorySize.  A NaN address satisfies neither comparison, so it
passes. -/
def ensureMemoryBounds (address : Option Int) : Except JsError Unit :=
  match address with
  | some a =>
      if a < 0 ∨ memorySize ≤ a then
        .error (.rangeError "address out of memory bounds")
      else .ok ()
  | none => .ok ()

/-- #ensureStackBounds: present in the source but never called by any
execution path (dead code). -/
def ensureStackBounds (address : Option Int) : Except JsError Unit :=
  match address with
  | some a =>
      if a < 0 ∨ stackSize ≤ a then
        .error (.rangeError "address out of stack bounds")
      else .ok ()
  | none => .ok ()

/-- #ensureStackCount: throws RangeError (the stack-underflow error) when
the stack counter is below the demanded amount. -/
def ensureStackCount (m : Machine) (amount : Int) : Except JsError Unit :=
  if m.stackCounter < amount then
    .error (.rangeError "stack must contain the required number of items")
  else .ok ()

/-- #defineSafeStateChange: validates the proposed state change and throws
(via #fail) on any violated constraint.  The `typeof halt` and
`Array.isArray` checks of the source always pass in this typed model. -/
def defineSafeStateChange (m : Machine) (c : StateChange) :
    Except JsError StateChange :=
  if !(isInStackCount m.stackCounter c.numStackValuesPopped) then
    .error (.error "state change constraint violated")
  else if !(c.stackValuesPushed.all isInValueRange) then
    .error (.error "state change constraint violated")
  else if c.memoryAddressWritten.isSome && !(isInAddressRange c.memoryAddressWritten) then
    .error (.error "state change constraint violated")
  else if c.memoryValueWritten.isSome && !(isInValueRange c.memoryValueWritten) then
    .error (.error "state change constraint violated")
  else if !c.halt && !(isInAddressRange (jsAdd m.instructionPointer c.instructionPointerDiff)) then
    .error (.error "state change constraint violated")
  else .ok c

/-- #halt -/
def opHalt (m : Machine) : Except JsError StateChange :=
  defineSafeStateChange m
    { halt := true, numStackValuesPopped := 0, stackValuesPushed := [],
      memoryAddressWritten := none, memoryValueWritten := none,
      instructionPointerDiff := none }

/-- #noOperation -/
def opNoOperation (m : Machine) : Except JsError StateChange :=
  defineSafeStateChange m
    { halt := false, numStackValuesPopped := 0, stackValuesPushed := [],
      memoryAddressWritten := none, memoryValueWritten := none,
      instructionPointerDiff := some 1 }

/-- #push: checks memory bounds of IP+1, pushes the word at IP+1. -/
def opPush (m : Machine) : Except JsError StateChange :=
  Except.bind (ensureMemoryBounds (jsAdd m.instructionPointer (some 1)))
    (fun _ => defineSafeStateChange m
      { halt := false, numStackValuesPopped := 0,
        stackValuesPushed := [jsIndexRead m.memory (jsAdd m.instructionPointer (some 1))],
        memoryAddressWritten := none, memoryValueWritten := none,
        instructionPointerDiff := some 2 })

/-- #pop: note the source performs no #ensureStackCount call here. -/
def opPop (m : Machine) : Except JsError StateChange :=
  defineSafeStateChange m
    { halt := false, numStackValuesPopped := 1, stackValuesPushed := [],
      memoryAddressWritten := none, memoryValueWritten := none,
      instructionPointerDiff := some 1 }

/-- #store -/
def opStore (m : Machine) : Except JsError StateChange :=
  Except.bind (ensureStackCount m 2)
    (fun _ => defineSafeStateChange m
      { halt := false, numStackValuesPopped := 2, stackValuesPushed := [],
        memoryAddressWritten := aRead m.stack (m.stackCounter - 1),
        memoryValueWritten := aRead m.stack (m.stackCounter - 2),
        instructionPointerDiff := some 1 })

/-- #load -/
def opLoad (m : Machine) : Except JsError StateChange :=
  Except.bind (ensureStackCount m 1)
    (fun _ => defineSafeStateChange m
      { halt := false, numStackValuesPopped := 1,
        stackValuesPushed := [jsIndexRead m.memory (aRead m.stack (m.stackCounter - 1))],
        memoryAddressWritten := none, memoryValueWritten := none,
        instructionPointerDiff := some 1 })

/-- #add -/
def opAdd (m : Machine) : Except JsError StateChange :=
  Except.bind (ensureStackCount m 2)
    (fun _ => defineSafeStateChange m
      { halt := false, numStackValuesPopped := 2,
        stackValuesPushed :=
          [jsAdd (aRead m.stack (m.stackCounter - 1)) (aRead m.stack (m.stackCounter - 2))],
        memoryAddressWritten := none, memoryValueWritten := none,
        instructionPointerDiff := some 1 })

/-- #subtract -/
def opSubtract (m : Machine) : Except JsError StateChange :=
  Except.bind (ensureStackCount m 2)
    (fun _ => defineSafeStateChange m
      { halt := false, numStackValuesPopped := 2,
        stackValuesPushed :=
          [jsSub (aRead m.stack (m.stackCounter - 1)) (aRead m.stack (m.stackCounter - 2))],
        memoryAddressWritten := none, memoryValueWritten := none,
        instructionPointerDiff := some 1 })

/-- #multiply -/
def opMultiply (m : Machine) : Except JsError StateChange :=
  Except.bind (ensureStackCount m 2)
    (fun _ => defineSafeStateChange m
      { halt := false, numStackValuesPopped := 2,
        stackValuesPushed :=
          [jsMul (aRead m.stack (m.stackCounter - 1)) (aRead m.stack (m.stackCounter - 2))],
        memoryAddressWritten := none, memoryValueWritten := none,
        instructionPointerDiff := some 1 })

/-- The quotient the source computes for defined operands:
dividend when the divisor is 0, else Math.floor(dividend / divisor). -/
def divQuotient (dividend divisor : Int) : Int :=
  if divisor = 0 then dividend else Int.fdiv dividend divisor

/-- The remainder the source computes for defined operands:
dividend when the divisor is 0, else the JS truncated remainder. -/
def divRemainder (dividend divisor : Int) : Int :=
  if divisor = 0 then dividend else Int.tmod dividend divisor

/-- #divide: dividend is the top of the stack, divisor the second;
pushes the remainder then the quotient (quotient ends on top). -/
def opDivide (m : Machine) : Except JsError StateChange :=
  Except.bind (ensureStackCount m 2)
    (fun _ =>
      let dividend := aRead m.stack (m.stackCounter - 1)
      let divisor := aRead m.stack (m.stackCounter - 2)
      let quotient := if jsStrictEq divisor (some 0) then dividend
        else jsFloorDiv dividend divisor
      let remainder := if jsStrictEq divisor (some 0) then dividend
        else jsMod dividend divisor
      defineSafeStateChange m
        { halt := false, numStackValuesPopped := 2,
          stackValuesPushed := [remainder, quotient],
          memoryAddressWritten := none, memoryValueWritten := none,
          instructionPointerDiff := some 1 })

/-- #less -/
def opLess (m : Machine) : Except JsError StateChange :=
  Except.bind (ensureStackCount m 2)
    (fun _ => defineSafeStateChange m
      { halt := false, numStackValuesPopped := 2,
        stackValuesPushed :=
          [some (if jsLt (aRead m.stack (m.stackCounter - 1)) (aRead m.stack (m.stackCounter - 2)) then 1 else 0)],
        memoryAddressWritten := none, memoryValueWritten := none,
        instructionPointerDiff := some 1 })

/-- #greater -/
def opGreater (m : Machine) : Except JsError StateChange :=
  Except.bind (ensureStackCount m 2)
    (fun _ => defineSafeStateChange m
      { halt := false, numStackValuesPopped := 2,
        stackValuesPushed :=
          [some (if jsGt (aRead m.stack (m.stackCounter - 1)) (aRead m.stack (m.stackCounter - 2)) then 1 else 0)],
        memoryAddressWritten := none, memoryValueWritten := none,
        instructionPointerDiff := some 1 })

/-- #same -/
def opSame (m : Machine) : Except JsError StateChange :=
  Except.bind (ensureStackCount m 2)
    (fun _ => defineSafeStateChange m
      { halt := false, numStackValuesPopped := 2,
        stackValuesPushed :=
          [some (if jsStrictEq (aRead m.stack (m.stackCounter - 1)) (aRead m.stack (m.stackCounter - 2)) then 1 else 0)],
        memoryAddressWritten := none, memoryValueWritten := none,
        instructionPointerDiff := some 1 })

/-- #different -/
def opDifferent (m : Machine) : Except JsError StateChange :=
  Except.bind (ensureStackCount m 2)
    (fun _ => defineSafeStateChange m
      { halt := false, numStackValuesPopped := 2,
        stackValuesPushed :=
          [some (if !(jsStrictEq (aRead m.stack (m.stackCounter - 1)) (aRead m.stack (m.stackCounter - 2))) then 1 else 0)],
        memoryAddressWritten := none, memoryValueWritten := none,
        instructionPointerDiff := some 1 })

/-- #and -/
def opAnd (m : Machine) : Except JsError StateChange :=
  Except.bind (ensureStackCount m 2)
    (fun _ => defineSafeStateChange m
      { halt := false, numStackValuesPopped := 2,
        stackValuesPushed :=
          [some (if jsStrictEq (aRead m.stack (m.stackCounter - 1)) (some 1) &&
                    jsStrictEq (aRead m.stack (m.stackCounter - 2)) (some 1) then 1 else 0)],
        memoryAddressWritten := none, memoryValueWritten := none,
        instructionPointerDiff := some 1 })

/-- #or -/
def opOr (m : Machine) : Except JsError StateChange :=
  Except.bind (ensureStackCount m 2)
    (fun _ => defineSafeStateChange m
      { halt := false, numStackValuesPopped := 2,
        stackValuesPushed :=
          [some (if jsStrictEq (aRead m.stack (m.stackCounter - 1)) (some 1) ||
                    jsStrictEq (aRead m.stack (m.stackCounter - 2)) (some 1) then 1 else 0)],
        memoryAddressWritten := none, memoryValueWritten := none,
        instructionPointerDiff := some 1 })

/-- #not -/
def opNot (m : Machine) : Except JsError StateChange :=
  Except.bind (ensureStackCount m 1)
    (fun _ => defineSafeStateChange m
      { halt := false, numStackValuesPopped := 1,
        stackValuesPushed :=
          [some (if jsStrictEq (aRead m.stack (m.stackCounter - 1)) (some 0) then 1 else 0)],
        memoryAddressWritten := none, memoryValueWritten := none,
        instructionPointerDiff := some 1 })

/-- #jump -/
def opJump (m : Machine) : Except JsError StateChange :=
  Except.bind (ensureStackCount m 1)
    (fun _ => defineSafeStateChange m
      { halt := false, numStackValuesPopped := 1, stackValuesPushed := [],
        memoryAddressWritten := none, memoryValueWritten := none,
        instructionPointerDiff :=
          jsSub (aRead m.stack (m.stackCounter - 1)) m.instructionPointer })

/-- #jumpConditionally -/
def opJumpConditionally (m : Machine) : Except JsError StateChange :=
  Except.bind (ensureStackCount m 2)
    (fun _ => defineSafeStateChange m
      { halt := false, numStackValuesPopped := 2, stackValuesPushed := [],
        memoryAddressWritten := none, memoryValueWritten := none,
        instructionPointerDiff :=
          if jsStrictEq (aRead m.stack (m.stackCounter - 1)) (some 1) then
            jsSub (aRead m.stack (m.stackCounter - 2)) m.instructionPointer
          else some 1 })

/-- static getOpNameByCode: Object.keys(operations)[opCode], throwing a
RangeError when the lookup yields undefined (negative, too large, or an
undefined/NaN opcode). -/
def getOpNameByCode (opCode : Option Int) : Except JsError OpName :=
  match opCode with
  | some c =>
      match (if 0 ≤ c then opList.get? c.toNat else none) with
      | some n => .ok n
      | none => .error (.rangeError "invalid operation code")
  | none => .error (.rangeError "invalid operation code")

/-- static getOpCodeByName: findIndex over the canonical enumeration.  For
a value of the closed OpName type the lookup always succeeds, so the
throwing branch of the source is unreachable here. -/
def getOpCodeByName (n : OpName) : Int :=
  ((opList.findIdx (fun x => x == n) : Nat) : Int)

/-- #getOperationByName: dispatch to the per-operation handler. -/
def runOp (m : Machine) : OpName → Except JsError StateChange
  | .halt => opHalt m
  | .noOperation => opNoOperation m
  | .push => opPush m
  | .pop => opPop m
  | .store => opStore m
  | .load => opLoad m
  | .add => opAdd m
  | .subtract => opSubtract m
  | .multiply => opMultiply m
  | .divide => opDivide m
  | .less => opLess m
  | .greater => opGreater m
  | .same => opSame m
  | .different => opDifferent m
  | .and => opAnd m
  | .or => opOr m
  | .not => opNot m
  | .jump => opJump m
  | .jumpConditionally => opJumpConditionally m

/-- The fallible part of execute(): fetch the opcode at IP, decode it, and
run the operation handler to obtain a validated state change.  Any throw in
this phase is caught by execute() before any mutation. -/
def executeEffect (m : Machine) :
    Except JsError (OpName × Option Int × StateChange) :=
  Except.bind (getOpNameByCode (jsIndexRead m.memory m.instructionPointer))
    (fun opName =>
      Except.bind (runOp m opName)
        (fun sc => .ok (opName, jsIndexRead m.memory m.instructionPointer, sc)))

/-- The for-of loop of execute() that writes the pushed values at
increasing indices, returning the written stack and the final counter. -/
def pushAll (a : List Int) (i : Int) : List (Option Int) → List Int × Int
  | [] => (a, i)
  | v :: vs => pushAll (aWrite a i v) (i + 1) vs

/-- The mutation phase of execute(): zero-fill the popped slots, write the
pushed values (out-of-bounds writes are silently dropped by the Int8Array),
apply the memory write if present, and add the IP diff (adding the
`undefined` diff of a halt turns the IP into NaN, i.e. `none`). -/
def applyStateChange (m : Machine) (sc : StateChange) : Machine :=
  let intermediate := m.stackCounter - sc.numStackValuesPopped
  let stack1 := aFill m.stack 0 intermediate m.stackCounter
  let pr := pushAll stack1 intermediate sc.stackValuesPushed
  { stack := pr.1, stackCounter := pr.2,
    memory :=
      match sc.memoryAddressWritten with
      | some a => aWrite m.memory a sc.memoryValueWritten
      | none => m.memory,
    instructionPointer := jsAdd m.instructionPointer sc.instructionPointerDiff }

/-- The state-change report execute() returns. -/
inductive Report where
  | success (opName : OpName) (opCode : Option Int) (halt : Bool)
      (numStackValuesPopped : Int) (stackValuesPushed : List (Option Int))
      (instructionPointerDiff : Option Int)
      (memoryAddressWritten : Option Int) (memoryValueWritten : Option Int)
  | failure (error : JsError)
deriving DecidableEq

/-- execute(): one fetch-decode-execute cycle.  Every throw inside the try
block happens before any mutation, so on failure the machine is returned
unchanged; the function is total and always returns a report. -/
def execute (m : Machine) : Machine × Report :=
  match executeEffect m with
  | .error e => (m, .failure e)
  | .ok (opName, opCode, sc) =>
      (applyStateChange m sc,
       .success opName opCode sc.halt sc.numStackValuesPopped
         sc.stackValuesPushed sc.instructionPointerDiff
         sc.memoryAddressWritten sc.memoryValueWritten)

/-- reset(): zero stack and memory, zero the counter and the IP. -/
def reset (_ : Machine) : Machine :=
  { stack := List.replicate 256 0, stackCounter := 0,
    memory := List.replicate 256 0, instructionPointer := some 0 }

/-- The argument passed to load(): either an Int8Array (whose entries are
8-bit signed by construction) or any other JS value, which the instanceof
check rejects. -/
inductive LoadInput where
  | int8Array (words : List Int)
  | notInt8Array

/-- the for loop of load(): memory[i] = words[i] for increasing i -/
def loadWords (mem : List Int) (i : Int) : List Int → List Int
  | [] => mem
  | w :: ws => loadWords (aWrite mem i (some w)) (i + 1) ws

/-- load(words): type check, emptiness check, size check, then copy the
words into the memory prefix.  All three checks throw before any state is
touched. -/
def load (m : Machine) : LoadInput → Except JsError Machine
  | .notInt8Array => .error (.typeError "program must be of type Int8Array")
  | .int8Array words =>
      if words.length = 0 then
        .error (.rangeError "program must not be empty")
      else if memorySize < (words.length : Int) then
        .error (.rangeError "program size must not exceed memory size")
      else .ok { m with memory := loadWords m.memory 0 words }

/-- A fresh StackMachine instance: field initializers give zeroed
Int8Arrays and zero counter and IP. -/
def freshMachine : Machine :=
  { stack := List.replicate 256 0, stackCounter := 0,
    memory := List.replicate 256 0, instructionPointer := some 0 }

/-- Machine states reachable from a fresh instance by any sequence of
successful or failed load, execute, and reset calls (failed load calls
leave the state unchanged, so only successful ones produce new states). -/
inductive Reachable : Machine → Prop where
  | fresh : Reachable freshMachine
  | loadStep : ∀ m inp m2, Reachable m → load m inp = .ok m2 → Reachable m2
  | execStep : ∀ m, Reachable m → Reachable (execute m).1
  | resetStep : ∀ m, Reachable m → Reachable (reset m)

/-- A parse node of the assembler: `{ code, type: "data", value, comment }`
for an integer token, `{ code, type: opName, comment }` for a mnemonic. -/
inductive ParseNode where
  | data (code : String) (value : Int) (comment : Option String)
  | operation (code : String) (opType : OpName) (comment : Option String)
deriving DecidableEq

/-- The mnemonic table of the Assembly class, in declaration order (the
order Object.entries iterates it in). -/
def mnemonics : List (OpName × String) :=
  [(.halt, "ha"), (.noOperation, "no"), (.push, "pu"), (.pop, "po"),
   (.store, "st"), (.load, "lo"), (.add, "ad"), (.subtract, "su"),
   (.multiply, "mu"), (.divide, "di"), (.less, "le"), (.greater, "gr"),
   (.same, "sa"), (.different, "df"), (.and, "an"), (.or, "or"),
   (.not, "nt"), (.jump, "ju"), (.jumpConditionally, "jc")]

/-- A character matched by the regex class `[\w\d-]` (no unicode flag):
ASCII letters, digits, underscore, hyphen. -/
def isTokenChar (c : Char) : Bool :=
  c.isAlpha || c.isDigit || decide (c = '_') || decide (c = '-')

/-- programText.split("\n") on the character list. -/
def splitNl : List Char → List (List Char)
  | [] => [[]]
  | c :: cs =>
      match splitNl cs with
      | [] => [[]]
      | l :: ls => if c = '\n' then [] :: l :: ls else (c :: l) :: ls

/-- line.trim(): strip leading and trailing whitespace. -/
def jsTrim (l : List Char) : List Char :=
  ((l.dropWhile Char.isWhitespace).reverse.dropWhile Char.isWhitespace).reverse

/-- The match of the unanchored regex
`\s*([\w\d-]+)\s*(#([^\n]+))?` against a line (which contains no newline):
the engine searches from the leftmost position, so the token capture is the
first maximal run of token characters, and the comment capture participates
only when, after skipping whitespace directly following the token, a `#`
with at least one character after it follows.  When the line has no token
character at all, exec returns null and the source then crashes reading
`captures[1]` (a TypeError). -/
def regexCaptures : List Char → Except JsError (List Char × Option (List Char))
  | [] => .error (.typeError "cannot read properties of null")
  | c :: cs =>
      if isTokenChar c then
        let tok := (c :: cs).takeWhile isTokenChar
        let rest := ((c :: cs).dropWhile isTokenChar).dropWhile Char.isWhitespace
        match rest with
        | '#' :: d :: ds => .ok (tok, some (d :: ds))
        | _ => .ok (tok, none)
      else regexCaptures cs

/-- The longest digit prefix of the list, as a number; none when empty. -/
def decDigitsVal (l : List Char) : Option Nat :=
  let ds := l.takeWhile Char.isDigit
  if ds.isEmpty then none
  else some (ds.foldl (fun acc c => 10 * acc + (c.toNat - 48)) 0)

/-- A hexadecimal digit for parseInt's 0x form. -/
def isHexDigitChar (c : Char) : Bool :=
  c.isDigit || (decide ('a' ≤ c) && decide (c ≤ 'f')) ||
    (decide ('A' ≤ c) && decide (c ≤ 'F'))

/-- Value of one hexadecimal digit. -/
def hexDigitVal (c : Char) : Nat :=
  if c.isDigit then c.toNat - 48
  else if decide ('a' ≤ c) && decide (c ≤ 'f') then c.toNat - 87
  else c.toNat - 55

/-- The longest hexadecimal-digit prefix, as a number; none when empty. -/
def hexDigitsVal (l : List Char) : Option Nat :=
  let ds := l.takeWhile isHexDigitChar
  if ds.isEmpty then none
  else some (ds.foldl (fun acc c => 16 * acc + hexDigitVal c) 0)

/-- The magnitude parseInt reads after the optional sign: a 0x/0X prefix
switches to hexadecimal, otherwise the longest decimal-digit prefix. -/
def parseIntMagnitude : List Char → Option Nat
  | '0' :: 'x' :: rest => hexDigitsVal rest
  | '0' :: 'X' :: rest => hexDigitsVal rest
  | l => decDigitsVal l

/-- parseInt(code) with no radix argument: optional sign then the longest
numeric prefix; NaN (none) when no digits follow.  The token contains no
leading whitespace by construction of the regex capture. -/
def parseIntJS (l : List Char) : Option Int :=
  match l with
  | '-' :: rest => (parseIntMagnitude rest).map (fun n => -(n : Int))
  | '+' :: rest => (parseIntMagnitude rest).map (fun n => (n : Int))
  | rest => (parseIntMagnitude rest).map (fun n => (n : Int))

/-- Classify one extracted token: an integer-parsing token yields a Data
node, else the first matching mnemonic yields an Operation node, else the
parse fails with the invalid-code error. -/
def classifyToken (tok : List Char) (comment : Option (List Char)) :
    Except JsError ParseNode :=
  match parseIntJS tok with
  | some v => .ok (.data (String.mk tok) v ((comment).map String.mk))
  | none =>
      match mnemonics.find? (fun p => p.2 == String.mk tok) with
      | some p => .ok (.operation (String.mk tok) p.1 ((comment).map String.mk))
      | none => .error (.error "invalid assembly code")

/-- Parse one already trimmed, non-empty line. -/
def parseLine (l : List Char) : Except JsError ParseNode :=
  Except.bind (regexCaptures l) (fun p => classifyToken p.1 p.2)

/-- static parseProgram: split on newlines, trim, drop blank lines, reject
programs longer than the memory size, then parse each line. -/
def parseProgram (programText : String) : Except JsError (List ParseNode) :=
  let lines := ((splitNl programText.toList).map jsTrim).filter
    (fun l => !l.isEmpty)
  if memorySize < (lines.length : Int) then
    .error (.rangeError "program length exceeds memory size")
  else lines.mapM parseLine

/-- static generateInstructions: a Data node emits its value after the word
range check (throwing a RangeError otherwise), an Operation node emits its
opcode.  The resulting list is the Int8Array image handed to load. -/
def generateInstructions (parseTree : List ParseNode) :
    Except JsError (List Int) :=
  parseTree.mapM (fun n =>
    match n with
    | .data _ v _ =>
        if isInValueRange (some v) then .ok v
        else .error (.rangeError "data value exceeds value range")
    | .operation _ t _ => .ok (getOpCodeByName t))

/-- Decidable equality for Except values, used to evaluate the model on
concrete inputs. -/
instance instDecEqExceptSM {ε α : Type} [DecidableEq ε] [DecidableEq α] :
    DecidableEq (Except ε α) := fun a b =>
  match a, b with
  | .error e1, .error e2 =>
      if h : e1 = e2 then .isTrue (by rw [h])
      else .isFalse (fun hh => by cases hh; exact h rfl)
  | .ok v1, .ok v2 =>
      if h : v1 = v2 then .isTrue (by rw [h])
      else .isFalse (fun hh => by cases hh; exact h rfl)
  | .error _, .ok _ => .isFalse (fun hh => by cases hh)
  | .ok _, .error _ => .isFalse (fun hh => by cases hh)

/-- A machine with an empty stack about to execute a pop: the pop opcode
(3) sits at address 0 of an otherwise zeroed memory. -/
def popOnEmptyMachine : Machine :=
  { stack := List.replicate 256 0, stackCounter := 0,
    memory := 3 :: List.replicate 255 0, instructionPointer := some 0 }

/-- A fresh machine whose first memory word is 19, one past the largest
opcode: the fetch fails with the invalid-opcode RangeError. -/
def invalidOpcodeMachine : Machine :=
  { stack := List.replicate 256 0, stackCounter := 0,
    memory := 19 :: List.replicate 255 0, instructionPointer := some 0 }

/-- About to divide -128 (top) by -1 (second): the floor quotient 128 is
outside the word range. -/
def divideOverflowMachine : Machine :=
  { stack := -1 :: -128 :: List.replicate 254 0, stackCounter := 2,
    memory := 9 :: List.replicate 255 0, instructionPointer := some 0 }

/-- About to divide 7 (top) by 5 (second) with the divide opcode in the
last memory cell: the advanced IP 256 is outside the address range. -/
def divideIpBoundaryMachine : Machine :=
  { stack := 5 :: 7 :: List.replicate 254 0, stackCounter := 2,
    memory := List.replicate 255 0 ++ [9], instructionPointer := some 255 }

/-- About to divide 7 (top) by 3 (second) at address 0. -/
def divideSampleMachine : Machine :=
  { stack := 3 :: 7 :: List.replicate 254 0, stackCounter := 2,
    memory := 9 :: List.replicate 255 0, instructionPointer := some 0 }

/-- About to add 100 (top) and 100 (second): the sum 200 is outside the
word range. -/
def addOverflowMachine : Machine :=
  { stack := 100 :: 100 :: List.replicate 254 0, stackCounter := 2,
    memory := 6 :: List.replicate 255 0, instructionPointer := some 0 }

/-- A fresh machine about to push the immediate 5. -/
def pushSampleMachine : Machine :=
  { stack := List.replicate 256 0, stackCounter := 0,
    memory := 2 :: 5 :: List.replicate 254 0, instructionPointer := some 0 }

/-- A machine whose stack counter already equals stackSize, with a push of
immediate 0 sitting in the last two memory cells: the post-push IP 256 is
out of the address range, so the step fails (for the IP, not the stack). -/
def pushFullIpBoundaryMachine : Machine :=
  { stack := List.replicate 256 0, stackCounter := 256,
    memory := List.replicate 254 0 ++ [2, 0], instructionPointer := some 254 }

/-- A machine whose stack counter already equals stackSize, about to push
the immediate 7 from address 0. -/
def pushFullSampleMachine : Machine :=
  { stack := List.replicate 256 0, stackCounter := 256,
    memory := 2 :: 7 :: List.replicate 254 0, instructionPointer := some 0 }

/-! Helper lemmas about the Int8Array model. -/

theorem toInt8_eq_self (v : Int) (h1 : -128 ≤ v) (h2 : v ≤ 127) : toInt8 v = v := by
  unfold toInt8
  rw [Int.emod_eq_of_lt (by omega) (by omega)]
  ring

theorem isInValueRange_some_iff (v : Int) :
    isInValueRange (some v) = true ↔ (-128 ≤ v ∧ v ≤ 127) := by
  unfold isInValueRange wordSize
  norm_num

theorem aWrite_length (a : List Int) (i : Int) (v : Option Int) :
    (aWrite a i v).length = a.length := by
  unfold aWrite
  split
  · exact List.length_set a i.toNat (jsToInt8 v)
  · rfl

theorem aFill_length (a : List Int) (v : Int) (s e : Int) :
    (aFill a v s e).length = a.length := by
  unfold aFill
  exact List.length_ofFn _

theorem aRead_aWrite_self (a : List Int) (i : Int) (v : Option Int)
    (h0 : 0 ≤ i) (h1 : i < (a.length : Int)) :
    aRead (aWrite a i v) i = some (jsToInt8 v) := by
  have hn : i.toNat < a.length := by omega
  unfold aRead aWrite
  rw [if_pos (And.intro h0 h1), if_pos h0]
  exact List.get?_set_eq_of_lt (jsToInt8 v) hn

theorem aRead_aWrite_ne (a : List Int) (i j : Int) (v : Option Int)
    (hne : i ≠ j) : aRead (aWrite a j v) i = aRead a i := by
  unfold aRead aWrite
  by_cases hi : 0 ≤ i
  · rw [if_pos hi, if_pos hi]
    split
    · next hcond => exact List.get?_set_ne (jsToInt8 v) a (by omega)
    · rfl
  · rw [if_neg hi, if_neg hi]

theorem aFill_self_of_le (a : List Int) (v : Int) (s e : Int)
    (hs : 0 ≤ s) (he : 0 ≤ e) (hef : e ≤ s) : aFill a v s e = a := by
  have hks : ¬(s < 0) := by omega
  have hke : ¬(e < 0) := by omega
  have hstep : ∀ i : Fin a.length,
      (if min s ((a.length : Int)) ≤ (i.val : Int) ∧
          (i.val : Int) < min e ((a.length : Int)) then toInt8 v
       else a.get i) = a.get i := by
    intro i
    rw [if_neg]
    rintro ⟨hlo, hhi⟩
    have hmono : min e ((a.length : Int)) ≤ min s ((a.length : Int)) :=
      min_le_min hef (le_refl _)
    have : (i.val : Int) < (i.val : Int) := lt_of_lt_of_le hhi (le_trans hmono hlo)
    exact absurd this (lt_irrefl _)
  unfold aFill
  simp only [if_neg hks, if_neg hke]
  calc List.ofFn (fun i : Fin a.length =>
          if min s ((a.length : Int)) ≤ (i.val : Int) ∧
              (i.val : Int) < min e ((a.length : Int)) then toInt8 v
          else a.get i)
      = List.ofFn a.get := congrArg List.ofFn (funext hstep)
    _ = a := List.ofFn_get a

/-! Helper lemmas about the Except plumbing of execute. -/

theorem except_bind_ok {α β : Type} {e : Except JsError α}
    {f : α → Except JsError β} {v : β} (h : Except.bind e f = .ok v) :
    ∃ u, e = .ok u ∧ f u = .ok v := by
  cases e with
  | error err => exact Except.noConfusion h
  | ok u => exact ⟨u, rfl, h⟩

theorem dssc_ok {m : Machine} {c sc : StateChange}
    (h : defineSafeStateChange m c = .ok sc) :
    sc = c ∧
    isInStackCount m.stackCounter c.numStackValuesPopped = true ∧
    c.stackValuesPushed.all isInValueRange = true ∧
    (c.memoryAddressWritten.isSome = true →
      isInAddressRange c.memoryAddressWritten = true) ∧
    (c.memoryValueWritten.isSome = true →
      isInValueRange c.memoryValueWritten = true) ∧
    (c.halt = false →
      isInAddressRange (jsAdd m.instructionPointer c.instructionPointerDiff) = true) := by
  unfold defineSafeStateChange at h
  split_ifs at h with h1 h2 h3 h4 h5
  cases h
  refine ⟨rfl, ?_, ?_, ?_, ?_, ?_⟩
  · simpa using h1
  · simpa using h2
  · intro hs
    by_contra hr
    exact h3 (by simp [hs, hr])
  · intro hs
    by_contra hr
    exact h4 (by simp [hs, hr])
  · intro hh
    by_contra hr
    exact h5 (by simp [hh, hr])

theorem runOp_factors {m : Machine} {op : OpName} {sc : StateChange}
    (h : runOp m op = .ok sc) :
    ∃ c, defineSafeStateChange m c = .ok sc := by
  cases op <;>
    simp only [runOp, opHalt, opNoOperation, opPush, opPop, opStore, opLoad,
      opAdd, opSubtract, opMultiply, opDivide, opLess, opGreater, opSame,
      opDifferent, opAnd, opOr, opNot, opJump, opJumpConditionally] at h
  all_goals
    first
    | exact ⟨_, h⟩
    | (rcases except_bind_ok h with ⟨u, _, h2⟩
       exact ⟨_, h2⟩)

theorem exec_fail_frame (m : Machine) (e : JsError)
    (h : (execute m).2 = .failure e) : (execute m).1 = m := by
  unfold execute at h ⊢
  cases hE : executeEffect m with
  | error err => rfl
  | ok t =>
      obtain ⟨n, oc, sc⟩ := t
      rw [hE] at h
      exact Report.noConfusion h

theorem exec_success_inv {m : Machine} {n : OpName} {oc : Option Int}
    {hl : Bool} {npop : Int} {pushed : List (Option Int)} {diff a w : Option Int}
    (h : (execute m).2 = .success n oc hl npop pushed diff a w) :
    ∃ sc, runOp m n = .ok sc ∧ sc.halt = hl ∧
      sc.numStackValuesPopped = npop ∧ sc.stackValuesPushed = pushed ∧
      sc.instructionPointerDiff = diff ∧ sc.memoryAddressWritten = a ∧
      sc.memoryValueWritten = w := by
  unfold execute at h
  cases hE : executeEffect m with
  | error err =>
      rw [hE] at h
      exact Report.noConfusion h
  | ok t =>
      obtain ⟨n0, oc0, sc⟩ := t
      rw [hE] at h
      unfold executeEffect at hE
      rcases except_bind_ok hE with ⟨opName, hA, hB⟩
      rcases except_bind_ok hB with ⟨sc2, hC, hD⟩
      injection hD with hD2
      injection hD2 with hN hRest
      injection hRest with hOC hSC
      injection h with r1 r2 r3 r4 r5 r6 r7 r8
      subst hN
      subst hSC
      subst r1
      exact ⟨_, hC, r3, r4, r5, r6, r7, r8⟩

theorem aRead_nonneg {a : List Int} {i : Int} {v : Int}
    (h : aRead a i = some v) : 0 ≤ i := by
  by_contra hneg
  unfold aRead at h
  rw [if_neg hneg] at h
  exact Option.noConfusion h

theorem aRead_lt_length {a : List Int} {i : Int} {v : Int}
    (h : aRead a i = some v) : i < (a.length : Int) := by
  have h0 := aRead_nonneg h
  unfold aRead at h
  rw [if_pos h0] at h
  obtain ⟨hlt, _⟩ := List.get?_eq_some.mp h
  omega

theorem loadWords_length (ws : List Int) : ∀ (mem : List Int) (k : Int),
    (loadWords mem k ws).length = mem.length := by
  induction ws with
  | nil => intro mem k; rfl
  | cons w ws ih =>
      intro mem k
      show (loadWords (aWrite mem k (some w)) (k + 1) ws).length = mem.length
      rw [ih, aWrite_length]

theorem loadWords_read_out (ws : List Int) : ∀ (mem : List Int) (k i : Int),
    (i < k ∨ k + (ws.length : Int) ≤ i) →
    aRead (loadWords mem k ws) i = aRead mem i := by
  induction ws with
  | nil => intro mem k i _; rfl
  | cons w ws ih =>
      intro mem k i h
      show aRead (loadWords (aWrite mem k (some w)) (k + 1) ws) i = aRead mem i
      rw [ih (aWrite mem k (some w)) (k + 1) i
        (by rcases h with h | h
            · exact Or.inl (by omega)
            · refine Or.inr ?_
              have : ((w :: ws).length : Int) = (ws.length : Int) + 1 := by
                push_cast [List.length_cons]
                ring
              omega)]
      exact aRead_aWrite_ne mem i k (some w)
        (by rcases h with h | h
            · omega
            · have hl : (0 : Int) ≤ (ws.length : Int) := Int.ofNat_nonneg _
              have : ((w :: ws).length : Int) = (ws.length : Int) + 1 := by
                push_cast [List.length_cons]
                ring
              omega)

theorem loadWords_read_in (ws : List Int) : ∀ (mem : List Int) (k i : Int),
    0 ≤ k → k ≤ i → i < k + (ws.length : Int) → i < (mem.length : Int) →
    aRead (loadWords mem k ws) i = some (toInt8 (ws.getD (i - k).toNat 0)) := by
  induction ws with
  | nil =>
      intro mem k i h0 h1 h2 h3
      simp only [List.length_nil, Nat.cast_zero, add_zero] at h2
      omega
  | cons w ws ih =>
      intro mem k i h0 h1 h2 h3
      have hlen : ((w :: ws).length : Int) = (ws.length : Int) + 1 := by
        push_cast [List.length_cons]
        ring
      show aRead (loadWords (aWrite mem k (some w)) (k + 1) ws) i = _
      by_cases hik : i = k
      · subst hik
        rw [loadWords_read_out ws _ (i + 1) i (Or.inl (by omega))]
        rw [aRead_aWrite_self mem i (some w) h0 h3]
        have : (i - i).toNat = 0 := by omega
        rw [this]
        rfl
      · have := ih (aWrite mem k (some w)) (k + 1) i (by omega) (by omega)
          (by omega) (by rw [aWrite_length]; exact h3)
        rw [this]
        have hsplit : (i - k).toNat = (i - (k + 1)).toNat + 1 := by omega
        rw [hsplit]
        rfl

/-- defineSafeStateChange succeeds on a state change whose individual
constraints hold (the shape every non-store handler produces). -/
theorem dssc_ok_of (m : Machine) (c : StateChange)
    (hpop : isInStackCount m.stackCounter c.numStackValuesPopped = true)
    (hpush : c.stackValuesPushed.all isInValueRange = true)
    (haddr : c.memoryAddressWritten = none)
    (hval : c.memoryValueWritten = none)
    (hhalt : c.halt = false)
    (hipd : isInAddressRange
      (jsAdd m.instructionPointer c.instructionPointerDiff) = true) :
    defineSafeStateChange m c = .ok c := by
  unfold defineSafeStateChange
  rw [if_neg (by simp [hpop]), if_neg (by simp [hpush]),
      if_neg (by simp [haddr]), if_neg (by simp [hval]),
      if_neg (by simp [hhalt, hipd])]

theorem div_quotient_branch (dividend divisor : Int) :
    (if jsStrictEq (some divisor) (some 0) then (some dividend : Option Int)
     else jsFloorDiv (some dividend) (some divisor)) =
    some (divQuotient dividend divisor) := by
  by_cases h : divisor = 0
  · simp [jsStrictEq, divQuotient, h]
  · simp [jsStrictEq, jsFloorDiv, divQuotient, h]

theorem div_remainder_branch (dividend divisor : Int) :
    (if jsStrictEq (some divisor) (some 0) then (some dividend : Option Int)
     else jsMod (some dividend) (some divisor)) =
    some (divRemainder dividend divisor) := by
  by_cases h : divisor = 0
  · simp [jsStrictEq, divRemainder, h]
  · simp [jsStrictEq, jsMod, divRemainder, h]

theorem stackSize_eq : stackSize = 256 := by decide

theorem memorySize_eq : memorySize = 256 := by decide

/-- Claim C4 (amended): for every well-formed machine about to execute
divide (the fetch at IP yields opcode 9) whose stack holds at least two
values, with dividend = top and divisor = second, and whose computed
remainder and quotient lie in the Word range and whose advanced IP stays in
the address range, divide pops both operands and pushes remainder then
quotient (divisor 0 gives quotient = remainder = dividend; otherwise the
floor quotient and the JS truncated remainder), the quotient ends on top,
and the IP advances by 1. -/
theorem claim_C4_divide_semantics (m : Machine) (ip dividend divisor : Int)
    (hst : m.stack.length = 256)
    (hip : m.instructionPointer = some ip)
    (hfetch : aRead m.memory ip = some 9)
    (hc2 : 2 ≤ m.stackCounter) (hc256 : m.stackCounter ≤ stackSize)
    (hip1 : ip + 1 < memorySize)
    (htop : aRead m.stack (m.stackCounter - 1) = some dividend)
    (hsec : aRead m.stack (m.stackCounter - 2) = some divisor)
    (hq : isInValueRange (some (divQuotient dividend divisor)) = true)
    (hr : isInValueRange (some (divRemainder dividend divisor)) = true) :
    (execute m).2 = Report.success OpName.divide (some 9) false 2
      [some (divRemainder dividend divisor), some (divQuotient dividend divisor)]
      (some 1) none none ∧
    (execute m).1.stackCounter = m.stackCounter ∧
    (execute m).1.instructionPointer = some (ip + 1) ∧
    (execute m).1.memory = m.memory ∧
    aRead (execute m).1.stack (m.stackCounter - 1) =
      some (divQuotient dividend divisor) ∧
    aRead (execute m).1.stack (m.stackCounter - 2) =
      some (divRemainder dividend divisor) := by
  have hip0 : 0 ≤ ip := aRead_nonneg hfetch
  have hc256s : m.stackCounter ≤ 256 := stackSize_eq ▸ hc256
  have hip1s : ip + 1 < 256 := memorySize_eq ▸ hip1
  obtain ⟨hq1, hq2⟩ := (isInValueRange_some_iff _).mp hq
  obtain ⟨hr1, hr2⟩ := (isInValueRange_some_iff _).mp hr
  have hipr : isInAddressRange (jsAdd m.instructionPointer (some 1)) = true := by
    rw [hip]
    show isInAddressRange (some (ip + 1)) = true
    simp only [isInAddressRange]
    rw [decide_eq_true (show (0 : Int) ≤ ip + 1 by omega), decide_eq_true hip1]
    rfl
  have hpush2 : ([some (divRemainder dividend divisor),
      some (divQuotient dividend divisor)] : List (Option Int)).all
      isInValueRange = true := by
    simp [List.all_cons, hq, hr]
  have hrun : runOp m OpName.divide =
      .ok { halt := false, numStackValuesPopped := 2,
            stackValuesPushed := [some (divRemainder dividend divisor),
                                  some (divQuotient dividend divisor)],
            memoryAddressWritten := none, memoryValueWritten := none,
            instructionPointerDiff := some 1 } := by
    show opDivide m = _
    unfold opDivide
    rw [show ensureStackCount m 2 = .ok () from by
      unfold ensureStackCount
      rw [if_neg (by omega)]]
    simp only [Except.bind]
    rw [htop, hsec, div_quotient_branch, div_remainder_branch]
    exact dssc_ok_of m _ rfl hpush2 rfl rfl rfl hipr
  have hEff : executeEffect m =
      .ok (OpName.divide, some 9,
        { halt := false, numStackValuesPopped := 2,
          stackValuesPushed := [some (divRemainder dividend divisor),
                                some (divQuotient dividend divisor)],
          memoryAddressWritten := none, memoryValueWritten := none,
          instructionPointerDiff := some 1 }) := by
    unfold executeEffect
    rw [hip]
    simp only [jsIndexRead]
    rw [hfetch, show getOpNameByCode (some 9) = Except.ok OpName.divide from by decide]
    simp only [Except.bind]
    rw [hrun]
  have hex : execute m =
      (applyStateChange m
        { halt := false, numStackValuesPopped := 2,
          stackValuesPushed := [some (divRemainder dividend divisor),
                                some (divQuotient dividend divisor)],
          memoryAddressWritten := none, memoryValueWritten := none,
          instructionPointerDiff := some 1 },
       Report.success OpName.divide (some 9) false 2
         [some (divRemainder dividend divisor),
          some (divQuotient dividend divisor)] (some 1) none none) := by
    unfold execute
    rw [hEff]
  have happly : applyStateChange m
      { halt := false, numStackValuesPopped := 2,
        stackValuesPushed := [some (divRemainder dividend divisor),
                              some (divQuotient dividend divisor)],
        memoryAddressWritten := none, memoryValueWritten := none,
        instructionPointerDiff := some 1 } =
      { stack := aWrite
          (aWrite (aFill m.stack 0 (m.stackCounter - 2) m.stackCounter)
            (m.stackCounter - 2) (some (divRemainder dividend divisor)))
          (m.stackCounter - 2 + 1) (some (divQuotient dividend divisor)),
        stackCounter := m.stackCounter - 2 + 1 + 1,
        memory := m.memory,
        instructionPointer := jsAdd m.instructionPointer (some 1) } := rfl
  have l0 : ((aFill m.stack 0 (m.stackCounter - 2) m.stackCounter).length : Int)
      = 256 := by rw [aFill_length, hst]; norm_num
  have l1 : ((aWrite (aFill m.stack 0 (m.stackCounter - 2) m.stackCounter)
      (m.stackCounter - 2) (some (divRemainder dividend divisor))).length : Int)
      = 256 := by rw [aWrite_length]; exact l0
  have e1 : m.stackCounter - 2 + 1 = m.stackCounter - 1 := by ring
  refine ⟨?_, ?_, ?_, ?_, ?_, ?_⟩
  · rw [hex]
  · rw [hex, happly]
    show m.stackCounter - 2 + 1 + 1 = m.stackCounter
    omega
  · rw [hex, happly]
    show jsAdd m.instructionPointer (some 1) = some (ip + 1)
    rw [hip]
    rfl
  · rw [hex, happly]
  · rw [hex, happly]
    show aRead (aWrite _ (m.stackCounter - 2 + 1) _) (m.stackCounter - 1) = _
    rw [e1, aRead_aWrite_self _ (m.stackCounter - 1) _ (by omega) (by omega)]
    show some (toInt8 (divQuotient dividend divisor)) = _
    rw [toInt8_eq_self _ hq1 hq2]
  · rw [hex, happly]
    show aRead (aWrite _ (m.stackCounter - 2 + 1) _) (m.stackCounter - 2) = _
    rw [e1, aRead_aWrite_ne _ (m.stackCounter - 2) (m.stackCounter - 1) _ (by omega),
        aRead_aWrite_self _ (m.stackCounter - 2) _ (by omega) (by omega)]
    show some (toInt8 (divRemainder dividend divisor)) = _
    rw [toInt8_eq_self _ hr1 hr2]

/-- Claim C9 (amended): for a well-formed machine whose stack counter
equals stackSize, executing push with a valid immediate and with the
advanced IP still inside the address range reports success, increments the
stack counter beyond stackSize, and stores the pushed value in no stack
slot (the Int8Array drops the out-of-bounds write); the stack, and the
memory, are returned unchanged. -/
theorem claim_C9_push_full_stack (m : Machine) (ip v : Int)
    (hst : m.stack.length = 256)
    (hc : m.stackCounter = stackSize)
    (hip : m.instructionPointer = some ip)
    (hfetch : aRead m.memory ip = some 2)
    (himm : aRead m.memory (ip + 1) = some v)
    (hv : isInValueRange (some v) = true)
    (hip2 : ip + 2 < memorySize) :
    execute m =
      ({ m with stackCounter := stackSize + 1, instructionPointer := some (ip + 2) },
       Report.success OpName.push (some 2) false 0 [some v] (some 2)
        none none) := by
  have hip0 : 0 ≤ ip := aRead_nonneg hfetch
  have hcs : m.stackCounter = 256 := by rw [hc, stackSize_eq]
  have hip2s : ip + 2 < 256 := memorySize_eq ▸ hip2
  have hensure : ensureMemoryBounds (jsAdd m.instructionPointer (some 1)) =
      .ok () := by
    rw [hip]
    show ensureMemoryBounds (some (ip + 1)) = .ok ()
    simp only [ensureMemoryBounds]
    rw [if_neg (show ¬(ip + 1 < 0 ∨ memorySize ≤ ip + 1) by rw [memorySize_eq]; omega)]
  have hipr : isInAddressRange (jsAdd m.instructionPointer (some 2)) = true := by
    rw [hip]
    show isInAddressRange (some (ip + 2)) = true
    simp only [isInAddressRange]
    rw [decide_eq_true (show (0 : Int) ≤ ip + 2 by omega), decide_eq_true hip2]
    rfl
  have hrun : runOp m OpName.push =
      .ok { halt := false, numStackValuesPopped := 0,
            stackValuesPushed := [some v],
            memoryAddressWritten := none, memoryValueWritten := none,
            instructionPointerDiff := some 2 } := by
    show opPush m = _
    unfold opPush
    rw [hensure]
    simp only [Except.bind]
    rw [hip]
    simp only [jsAdd, jsIndexRead]
    rw [himm]
    exact dssc_ok_of m _ rfl (by simp [hv]) rfl rfl rfl hipr
  have hEff : executeEffect m =
      .ok (OpName.push, some 2,
        { halt := false, numStackValuesPopped := 0,
          stackValuesPushed := [some v],
          memoryAddressWritten := none, memoryValueWritten := none,
          instructionPointerDiff := some 2 }) := by
    unfold executeEffect
    rw [hip]
    simp only [jsIndexRead]
    rw [hfetch, show getOpNameByCode (some 2) = Except.ok OpName.push from by decide]
    simp only [Except.bind]
    rw [hrun]
  have hfill : aFill m.stack 0 (m.stackCounter - 0) m.stackCounter = m.stack :=
    aFill_self_of_le m.stack 0 _ _ (by omega) (by omega) (by omega)
  have hwrite : aWrite m.stack (m.stackCounter - 0) (some v) = m.stack := by
    unfold aWrite
    rw [if_neg]
    rintro ⟨_, hlt⟩
    rw [hst] at hlt
    omega
  unfold execute
  rw [hEff]
  show (applyStateChange m _, _) = _
  unfold applyStateChange
  simp only [pushAll]
  rw [hfill, hwrite, hip]
  simp only [jsAdd]
  have : m.stackCounter - 0 + 1 = stackSize + 1 := by omega
  rw [this]

/-- Claim C1 (evidence of the code bug): executing pop on a machine with
stack counter 0 does NOT fail with a stack-underflow error - the step
reports success, the stack counter becomes -1 and the instruction pointer
advances, while memory and stack array are unchanged.  The spec scenario
demands a stack-underflow failure with unchanged state. -/
theorem claim_C1_pop_on_empty_stack :
    (execute popOnEmptyMachine).2 =
      Report.success OpName.pop (some 3) false 1 [] (some 1) none none ∧
    (execute popOnEmptyMachine).1.stackCounter = -1 ∧
    (execute popOnEmptyMachine).1.instructionPointer = some 1 ∧
    (execute popOnEmptyMachine).1.memory = popOnEmptyMachine.memory ∧
    (execute popOnEmptyMachine).1.stack = popOnEmptyMachine.stack := by
  decide

/-- Claim C2 (evidence of the code bug): a machine reachable from a fresh
instance by one load and one execute violates the stack-counter invariant
0 <= counter <= stackSize (the counter reaches -1). -/
theorem claim_C2_counter_invariant_violated :
    ∃ m2, Reachable m2 ∧
      ¬(0 ≤ m2.stackCounter ∧ m2.stackCounter ≤ stackSize) := by
  refine ⟨(execute popOnEmptyMachine).1,
    Reachable.execStep popOnEmptyMachine
      (Reachable.loadStep freshMachine (LoadInput.int8Array [3])
        popOnEmptyMachine Reachable.fresh (by decide)), ?_⟩
  decide

/-- Claim C3: execute always returns a report (it is a total function into
Machine x Report by construction), and whenever that report is a failure,
the machine state - memory, stack, stack counter and instruction pointer -
is returned unchanged. -/
theorem claim_C3_execute_never_throws (m : Machine) (e : JsError)
    (h : (execute m).2 = Report.failure e) : (execute m).1 = m :=
  exec_fail_frame m e h

/-- Witness for claim C3 at a concrete failing input: a fresh machine whose
first word is the invalid opcode 19. -/
theorem claim_C3_witness :
    (execute invalidOpcodeMachine).2 =
      Report.failure (JsError.rangeError "invalid operation code") ∧
    (execute invalidOpcodeMachine).1 = invalidOpcodeMachine :=
  ⟨by decide,
   claim_C3_execute_never_throws invalidOpcodeMachine
     (JsError.rangeError "invalid operation code") (by decide)⟩

/-- Counterexample to claim C4 as stated: with at least two stack values
(dividend -128 on top, divisor -1 second) the divide step does not pop and
push - it fails, because the computed quotient 128 is outside the Word
range; and with operands 7 and 5 but the divide opcode in the last memory
cell the step also fails, because the advanced IP 256 leaves the address
range.  In both cases the machine is unchanged. -/
theorem claim_C4_divide_counterexample :
    (2 ≤ divideOverflowMachine.stackCounter ∧
     aRead divideOverflowMachine.stack
       (divideOverflowMachine.stackCounter - 1) = some (-128) ∧
     aRead divideOverflowMachine.stack
       (divideOverflowMachine.stackCounter - 2) = some (-1) ∧
     (execute divideOverflowMachine).2 =
       Report.failure (JsError.error "state change constraint violated") ∧
     (execute divideOverflowMachine).1 = divideOverflowMachine) ∧
    (2 ≤ divideIpBoundaryMachine.stackCounter ∧
     (execute divideIpBoundaryMachine).2 =
       Report.failure (JsError.error "state change constraint violated") ∧
     (execute divideIpBoundaryMachine).1 = divideIpBoundaryMachine) := by
  decide

/-- Witness for the amended claim C4 at a concrete input: dividing top 7 by
second 3 pushes remainder 1 then quotient 2. -/
theorem claim_C4_witness :
    (execute divideSampleMachine).2 = Report.success OpName.divide (some 9)
      false 2 [some (divRemainder 7 3), some (divQuotient 7 3)]
      (some 1) none none ∧
    (execute divideSampleMachine).1.stackCounter =
      divideSampleMachine.stackCounter ∧
    (execute divideSampleMachine).1.instructionPointer = some (0 + 1) ∧
    (execute divideSampleMachine).1.memory = divideSampleMachine.memory ∧
    aRead (execute divideSampleMachine).1.stack
      (divideSampleMachine.stackCounter - 1) = some (divQuotient 7 3) ∧
    aRead (execute divideSampleMachine).1.stack
      (divideSampleMachine.stackCounter - 2) = some (divRemainder 7 3) :=
  claim_C4_divide_semantics divideSampleMachine 0 7 3 (by decide) rfl
    (by decide) (by decide) (by decide) (by decide) (by decide) (by decide)
    (by decide) (by decide)

/-- Claim C5 (evidence of the code bug): the comment-only line "#1" is not
rejected - the unanchored line regex skips the leading hash, captures "1"
out of the comment text as the token, and parseProgram returns a Data
parse node carrying 1, instead of failing with a syntax error. -/
theorem claim_C5_comment_line_parses_as_data :
    parseProgram "#1" = .ok [ParseNode.data "1" 1 none] := by decide

/-- Claim C6: a successful step only ever reports pushed values and a
memory write value inside the Word range (so an out-of-range computed
value can never be committed, let alone silently wrapped), a failing step
leaves the machine unchanged, and in particular the add step at top = 100,
second = 100 fails with the machine unchanged. -/
theorem claim_C6_no_silent_truncation :
    (∀ (m : Machine) (n : OpName) (oc : Option Int) (hl : Bool) (npop : Int)
       (pushed : List (Option Int)) (diff a w : Option Int),
       (execute m).2 = Report.success n oc hl npop pushed diff a w →
       pushed.all isInValueRange = true ∧
       (w.isSome = true → isInValueRange w = true)) ∧
    (∀ (m : Machine) (e : JsError),
       (execute m).2 = Report.failure e → (execute m).1 = m) ∧
    (execute addOverflowMachine).2 =
      Report.failure (JsError.error "state change constraint violated") ∧
    (execute addOverflowMachine).1 = addOverflowMachine := by
  refine ⟨?_, exec_fail_frame, by decide, by decide⟩
  intro m n oc hl npop pushed diff a w h
  obtain ⟨sc, hrun, hhl, hnp, hpush, hdiff, haddr, hval⟩ := exec_success_inv h
  obtain ⟨c, hd⟩ := runOp_factors hrun
  obtain ⟨hsceq, _, hall, _, hvalr, _⟩ := dssc_ok hd
  subst hsceq
  refine ⟨?_, ?_⟩
  · rw [← hpush]
    exact hall
  · intro hs
    have h1 : sc.memoryValueWritten.isSome = true := by rw [hval]; exact hs
    have h2 := hvalr h1
    rw [hval] at h2
    exact h2

/-- Witness for claim C6 at a concrete successful step (push of 5). -/
theorem claim_C6_witness :
    (([some (5 : Int)] : List (Option Int)).all isInValueRange = true) ∧
    ((none : Option Int).isSome = true →
      isInValueRange (none : Option Int) = true) :=
  claim_C6_no_silent_truncation.1 pushSampleMachine OpName.push (some 2)
    false 0 [some 5] (some 2) none none (by decide)

/-- Claim C7: the Word range check accepts exactly the integers in
[-128, 127]; 128 and -129 are rejected by the static predicate and by code
generation for a Data node carrying them. -/
theorem claim_C7_word_range_check :
    (∀ v : Int, isInValueRange (some v) =
      (decide (-128 ≤ v) && decide (v ≤ 127))) ∧
    isInValueRange (some 128) = false ∧
    isInValueRange (some (-129)) = false ∧
    generateInstructions [ParseNode.data "128" 128 none] =
      .error (.rangeError "data value exceeds value range") ∧
    generateInstructions [ParseNode.data "-129" (-129) none] =
      .error (.rangeError "data value exceeds value range") :=
  ⟨fun _ => rfl, by decide, by decide, by decide, by decide⟩

/-- Claim C8: load fails on an empty array and on one longer than
memorySize; otherwise it writes word i to memory address i for every
i < n, leaves the rest of memory unchanged, and returns the stack, stack
counter and instruction pointer untouched. -/
theorem claim_C8_load_prefix (m : Machine) (words : List Int)
    (hmem : m.memory.length = 256)
    (hw : ∀ w ∈ words, -128 ≤ w ∧ w ≤ 127) :
    (words.length = 0 →
      load m (.int8Array words) =
        .error (.rangeError "program must not be empty")) ∧
    (memorySize < (words.length : Int) →
      load m (.int8Array words) =
        .error (.rangeError "program size must not exceed memory size")) ∧
    (1 ≤ words.length → (words.length : Int) ≤ memorySize →
      load m (.int8Array words) =
        .ok { m with memory := loadWords m.memory 0 words } ∧
      (∀ i : Int, 0 ≤ i → i < (words.length : Int) →
        aRead (loadWords m.memory 0 words) i = some (words.getD i.toNat 0)) ∧
      (∀ i : Int, (words.length : Int) ≤ i →
        aRead (loadWords m.memory 0 words) i = aRead m.memory i)) := by
  have h256 := memorySize_eq
  refine ⟨?_, ?_, ?_⟩
  · intro h0
    simp only [load]
    rw [if_pos h0]
  · intro hgt
    have hne : words.length ≠ 0 := by omega
    simp only [load]
    rw [if_neg hne, if_pos hgt]
  · intro h1 h2
    have hne : words.length ≠ 0 := by omega
    have hnotgt : ¬ memorySize < (words.length : Int) := by omega
    refine ⟨?_, ?_, ?_⟩
    · simp only [load]
      rw [if_neg hne, if_neg hnotgt]
    · intro i hi0 hilt
      rw [loadWords_read_in words m.memory 0 i le_rfl (by omega) (by omega)
        (by omega)]
      have hiz : (i - 0).toNat = i.toNat := by omega
      rw [hiz]
      have hltn : i.toNat < words.length := by omega
      have hmemb : words.getD i.toNat 0 ∈ words := by
        rw [List.getD_eq_getElem words 0 hltn]
        exact List.getElem_mem hltn
      obtain ⟨hb1, hb2⟩ := hw _ hmemb
      rw [toInt8_eq_self _ hb1 hb2]
    · intro i hile
      exact loadWords_read_out words m.memory 0 i (Or.inr (by omega))

/-- Witness for claim C8 at the one-word program [7] loaded into a fresh
machine. -/
theorem claim_C8_witness :
    (([7] : List Int).length = 0 →
      load freshMachine (.int8Array [7]) =
        .error (.rangeError "program must not be empty")) ∧
    (memorySize < ((([7] : List Int).length : Nat) : Int) →
      load freshMachine (.int8Array [7]) =
        .error (.rangeError "program size must not exceed memory size")) ∧
    (1 ≤ ([7] : List Int).length →
      ((([7] : List Int).length : Nat) : Int) ≤ memorySize →
      load freshMachine (.int8Array [7]) =
        .ok { freshMachine with
              memory := loadWords freshMachine.memory 0 [7] } ∧
      (∀ i : Int, 0 ≤ i → i < ((([7] : List Int).length : Nat) : Int) →
        aRead (loadWords freshMachine.memory 0 [7]) i =
          some (([7] : List Int).getD i.toNat 0)) ∧
      (∀ i : Int, ((([7] : List Int).length : Nat) : Int) ≤ i →
        aRead (loadWords freshMachine.memory 0 [7]) i =
          aRead freshMachine.memory i)) :=
  claim_C8_load_prefix freshMachine [7] (by decide) (by decide)

/-- Counterexample to claim C9 as stated: a machine with a full stack
(counter = stackSize) about to push a valid immediate can still fail - at
IP 254 the advanced IP 256 leaves the address range, so the step reports
failure rather than the success the claim asserts for every such machine. -/
theorem claim_C9_push_counterexample :
    pushFullIpBoundaryMachine.stackCounter = stackSize ∧
    jsIndexRead pushFullIpBoundaryMachine.memory
      pushFullIpBoundaryMachine.instructionPointer = some 2 ∧
    isInValueRange (aRead pushFullIpBoundaryMachine.memory 255) = true ∧
    (execute pushFullIpBoundaryMachine).2 =
      Report.failure (JsError.error "state change constraint violated") ∧
    (execute pushFullIpBoundaryMachine).1 = pushFullIpBoundaryMachine := by
  decide

/-- Witness for the amended claim C9: a machine with counter = stackSize
pushing the immediate 7 from address 0 succeeds, the counter passes
stackSize, and no stack slot receives the value. -/
theorem claim_C9_witness :
    execute pushFullSampleMachine =
      ({ pushFullSampleMachine with stackCounter := stackSize + 1, instructionPointer := some (0 + 2) },
       Report.success OpName.push (some 2) false 0 [some 7] (some 2)
         none none) :=
  claim_C9_push_full_stack pushFullSampleMachine 0 7 (by decide) (by decide)
    rfl (by decide) (by decide) (by decide) (by decide)

/-- Claim C10: load rejects an argument that is not an Int8Array with a
TypeError; the check is the first statement of load, so no state is
touched (the call returns no new machine). -/
theorem claim_C10_load_type_check (m : Machine) :
    load m LoadInput.notInt8Array =
      .error (.typeError "program must be of type Int8Array") := rfl

/-- Witness for claim C10 at a fresh machine. -/
theorem claim_C10_witness :
    load freshMachine LoadInput.notInt8Array =
      .error (.typeError "program must be of type Int8Array") :=
  claim_C10_load_type_check freshMachine

end StackMachineModel
